import Mathlib

/-!
Verification development for the lxe CRI shim.

Part 1 embeds `lxf/lxo/container.go` (`LXO.StopContainer`): the retry loop that
submits `ContainerStatePut` stop requests to the LXD-style manager and awaits the
resulting operations.  The manager is abstracted as a step function from the
attempt number and a manager state to a response, so that both arbitrary response
oracles and a concrete container state machine can be plugged in.

Part 2 models the CNI network plugin of `network/cni.go`, whose implementation is
not in the excerpt; its behaviour is modelled from the spec, pinned down by the
tests in `network/cni_test.go`.
-/

namespace Lxe

/-- Body of the `api.ContainerStatePut` request built by `StopContainer`
(`Action`, `Timeout`, `Force` are the fields the loop sets). -/
structure ContainerStatePut where
  action : String
  timeout : Int
  force : Bool
deriving Repr, DecidableEq

/-- The manager's reply to one `UpdateContainerState` call: either the call itself
returns an error (`submitError`), or it yields an operation whose `Wait` returns
`waitErr` (`none` meaning success). -/
inductive ManagerResponse where
  | submitError (msg : String)
  | opResult (waitErr : Option String)
deriving Repr, DecidableEq

/-- Error text the code compares against for a missing container (`err.Error() == "not found"`). -/
def notFoundMsg : String := "not found"

/-- Error text the code compares against after `op.Wait()` on an already stopped container. -/
def alreadyStoppedMsg : String := "The container is already stopped"

/-- The wrapped error `fmt.Errorf("failed to stop container %v, %v", id, err)`. -/
def wrapStopErr (id msg : String) : String :=
  "failed to stop container " ++ id ++ ", " ++ msg

/-- Observable outcome of a `StopContainer` run: the returned error (`none` = nil),
the final manager state, the submitted requests in order, and how many operations
were awaited via `op.Wait()`. -/
structure StopOutcome (σ : Type) where
  err : Option String
  state : σ
  reqs : List ContainerStatePut
  awaited : Nat
deriving Repr

/-- The request built on attempt `i` (1-based): `Action: "stop"`, the given
`Timeout`, and `Force: i == retries`. -/
def stopReq (timeout retries : Int) (i : Nat) : ContainerStatePut :=
  { action := "stop", timeout := timeout, force := (i : Int) == retries }

/-- One unrolling of the `for i := 1; i <= retries; i++` loop of `StopContainer`,
with `fuel` iterations left, current attempt number `i`, manager state `s` and the
current `lastErr`.  Each iteration submits `stopReq`; a submit error returns
immediately (nil for "not found", wrapped otherwise); an awaited completion equal
to "The container is already stopped" returns nil; otherwise `lastErr` is replaced
by the wait error and the loop continues.  On exhausted fuel the loop falls
through and returns `lastErr`. -/
def stopFrom {σ : Type} (server : Nat → σ → ManagerResponse × σ) (id : String)
    (timeout retries : Int) : Nat → Nat → σ → Option String → StopOutcome σ
  | _, 0, s, lastErr => ⟨lastErr, s, [], 0⟩
  | i, fuel + 1, s, _lastErr =>
    let req := stopReq timeout retries i
    match server i s with
    | (ManagerResponse.submitError msg, s2) =>
      if msg = notFoundMsg then ⟨none, s2, [req], 0⟩
      else ⟨some (wrapStopErr id msg), s2, [req], 0⟩
    | (ManagerResponse.opResult waitErr, s2) =>
      if waitErr = some alreadyStoppedMsg then ⟨none, s2, [req], 1⟩
      else
        let rest := stopFrom server id timeout retries (i + 1) fuel s2 waitErr
        ⟨rest.err, rest.state, req :: rest.reqs, rest.awaited + 1⟩

/-- `LXO.StopContainer(id, timeout, retries)` run against manager `server` from
state `s`: attempts start at 1 and the loop body runs `max retries 0` times. -/
def stopContainer {σ : Type} (server : Nat → σ → ManagerResponse × σ) (id : String)
    (timeout retries : Int) (s : σ) : StopOutcome σ :=
  stopFrom server id timeout retries 1 retries.toNat s none

/-- A stateless manager: the response depends only on the attempt number. -/
def oracleServer (f : Nat → ManagerResponse) : Nat → Unit → ManagerResponse × Unit :=
  fun i s => (f i, s)

/-- State of one container inside the manager. -/
inductive CState where
  | running
  | stopped
deriving Repr, DecidableEq

/-- A container manager holding at most one container (`none` = absent).  A stop
request on an absent container fails to submit with "not found"; on a stopped
container the operation completes with "The container is already stopped"; on a
running container the operation either succeeds and stops the container, or fails
with `flaky k` and leaves it running. -/
def managerServer (flaky : Nat → Option String) :
    Nat → Option CState → ManagerResponse × Option CState
  | _, none => (ManagerResponse.submitError notFoundMsg, none)
  | _, some CState.stopped =>
    (ManagerResponse.opResult (some alreadyStoppedMsg), some CState.stopped)
  | k, some CState.running =>
    match flaky k with
    | none => (ManagerResponse.opResult none, some CState.stopped)
    | some e => (ManagerResponse.opResult (some e), some CState.running)

/-! ### CNI network plugin model (`network/cni.go`)

The plugin implementation is not part of the excerpt; the definitions below are
modelled from the spec, with the expected values pinned by `network/cni_test.go`. -/

/-- Modelled from the spec: one entry of a CNI v0.4.0 result's `ips` list.  Only
the CIDR `address` string is consumed by IP extraction (a missing address field
deserialises to the empty string). -/
structure IPConfigEntry where
  address : String
deriving Repr, DecidableEq

/-- Split a character list at every occurrence of the separator `c` (the list of
pieces is never empty, mirroring `strings.Split`). -/
def splitOnChar (c : Char) : List Char → List (List Char)
  | [] => [[]]
  | x :: xs =>
    if x = c then [] :: splitOnChar c xs
    else
      match splitOnChar c xs with
      | [] => [[x]]
      | p :: ps => (x :: p) :: ps

/-- Decimal value of a digit list: `none` unless nonempty and all digits. -/
def decimalVal : List Char → Option Nat
  | [] => none
  | cs =>
    cs.foldl
      (fun acc c =>
        match acc with
        | none => none
        | some n => if c.isDigit then some (n * 10 + (c.toNat - 48)) else none)
      (some 0)

/-- Decimal parse of one numeric component: nonempty, all digits, value at most
`bound`. -/
def isNatLE (cs : List Char) (bound : Nat) : Bool :=
  match decimalVal cs with
  | some n => n ≤ bound
  | none => false

/-- IPv4 dotted-quad check: four decimal components, each at most 255. -/
def isIPv4 (cs : List Char) : Bool :=
  match splitOnChar '.' cs with
  | [a, b, c, d] => isNatLE a 255 && isNatLE b 255 && isNatLE c 255 && isNatLE d 255
  | _ => false

/-- Modelled from the spec: CIDR parsing as done by `net.ParseCIDR` restricted to
IPv4 dotted-quad addresses; on success the address portion (without the prefix
length) is returned, which is what the plugin exposes as the IP string. -/
def parseCIDR (s : String) : Option String :=
  match splitOnChar '/' s.toList with
  | [addr, pfx] => if isIPv4 addr && isNatLE pfx 32 then some (String.mk addr) else none
  | _ => none

/-- Whether an `Except` value is a success. -/
def exceptIsOk {ε α : Type} : Except ε α → Bool
  | Except.ok _ => true
  | Except.error _ => false

/-- Modelled from the spec: `cniPodNetwork.ips` walks the result's `ips` list in
order and parses every entry's address as CIDR, exposing the address portion; a
malformed address aborts with an error. -/
def ips : List IPConfigEntry → Except String (List String)
  | [] => Except.ok []
  | e :: es =>
    match parseCIDR e.address with
    | none => Except.error ("invalid CIDR address: " ++ e.address)
    | some a =>
      match ips es with
      | Except.error msg => Except.error msg
      | Except.ok rest => Except.ok (a :: rest)

/-- Modelled from the spec: `cniPodNetwork.Status` re-parses the stored result and
returns the current IPs; a result with no IPs is an error
(`Test_cniPodNetwork_Status_Missing`). -/
def statusIPs (entries : List IPConfigEntry) : Except String (List String) :=
  match ips entries with
  | Except.error e => Except.error e
  | Except.ok l => if l.isEmpty then Except.error "no ips in cni result" else Except.ok l

/-- What `cniContainerNetwork.WhenStarted` hands back: the raw CNI ADD result
stored under the result-data property, and the (empty) nic and network-config
lists the test observes. -/
structure ContNetResult where
  data : List IPConfigEntry
  nics : List String
  networkConfigEntries : List String
deriving Repr, DecidableEq

/-- Modelled from the spec: `cniContainerNetwork.WhenStarted` sets the netns path
from the pid, invokes CNI ADD and stores the raw result as a property.  No zero-IP
check is performed on the ADD result: `Test_cniContainerNetwork_WhenStarted` feeds
a result with an empty `ips` list and expects success, so the spec's "a result
with zero IPs is an error" check lives in `Status`/`ips`, not here. -/
def whenStarted (addErr : Option String) (addResult : List IPConfigEntry) (_pid : Nat) :
    Except String ContNetResult :=
  match addErr with
  | some e => Except.error e
  | none => Except.ok ⟨addResult, [], []⟩

/-- Modelled from the spec: `UpdateRuntimeConfig` — the chosen CNI plugin cannot
accept a dynamic pod CIDR, so every call fails cleanly with a hard error
(`Test_cniPlugin_UpdateRuntimeConfig` expects an error for a nil config). -/
def updateRuntimeConfig (_podCIDR : Option String) : Except String Unit :=
  Except.error "cni plugin cannot update to a dynamic pod cidr"

/-- The default interface name `DefaultInterface`. -/
def DefaultInterface : String := "eth0"

/-- Modelled from the spec: the `libcni.RuntimeConf` template cached per pod. -/
structure RuntimeConf where
  containerID : String
  netNS : String
  ifName : String
  args : List (String × String)
deriving Repr, DecidableEq

/-- Modelled from the spec: `cniPlugin.getCNIRuntimeConf` builds the runtime-conf
template with container ID = pod ID, empty netns (filled per action), the default
interface name, and no extra args (`Test_cniPlugin_getCNIRuntimeConf`). -/
def getCNIRuntimeConf (podID : String) : RuntimeConf :=
  { containerID := podID, netNS := "", ifName := DefaultInterface, args := [] }

/-! ### Helper lemmas -/

theorem parseCIDR_ne_empty (s a : String) (h : parseCIDR s = some a) : a ≠ "" := by
  unfold parseCIDR at h
  split at h
  · rename_i addr pfx heq
    split at h
    · rename_i hc
      obtain rfl : String.mk addr = a := by injection h
      intro hempty
      have haddr : addr = [] := by
        have hdata := congrArg String.data hempty
        simpa using hdata
      have hfalse : isIPv4 ([] : List Char) = false := rfl
      rw [haddr, hfalse] at hc
      simp at hc
    · exact absurd h (by simp)
  · exact absurd h (by simp)

theorem ips_mem (entries : List IPConfigEntry) (l : List String)
    (h : ips entries = Except.ok l) :
    ∀ a ∈ l, ∃ e ∈ entries, parseCIDR e.address = some a := by
  induction entries generalizing l with
  | nil =>
    unfold ips at h
    obtain rfl : ([] : List String) = l := by injection h
    intro a ha
    exact absurd ha (by simp)
  | cons e es ih =>
    unfold ips at h
    rcases hp : parseCIDR e.address with _ | a0 <;> rw [hp] at h
    · exact absurd h (by simp)
    · rcases hrest : ips es with msg | rest <;> rw [hrest] at h
      · exact absurd h (by simp)
      · obtain rfl : a0 :: rest = l := by injection h
        intro a ha
        rcases List.mem_cons.mp ha with rfl | hmem
        · exact ⟨e, List.mem_cons_self _ _, hp⟩
        · obtain ⟨e2, he2, hpe2⟩ := ih rest hrest a hmem
          exact ⟨e2, List.mem_cons_of_mem _ he2, hpe2⟩

theorem statusIPs_ok (entries : List IPConfigEntry) (l : List String)
    (h : statusIPs entries = Except.ok l) :
    ips entries = Except.ok l ∧ l ≠ [] := by
  unfold statusIPs at h
  split at h
  · exact absurd h (by simp)
  · rename_i l2 heq
    split at h
    · exact absurd h (by simp)
    · rename_i hne
      obtain rfl : l2 = l := by injection h
      refine ⟨heq, ?_⟩
      rcases l2 with _ | ⟨x, xs⟩
      · exact absurd rfl hne
      · simp

/-! ### Claim theorems: CNI network plugin -/

/-- C6: CNI result parsing — an entry with address "10.22.0.64/16" exposes the IP
"10.22.0.64" (the address portion with the prefix stripped); a result whose ips
list is empty is an error; an entry with the malformed address "bar" is an
error. -/
theorem cni_result_parsing_c6 :
    statusIPs [⟨"10.22.0.64/16"⟩] = Except.ok ["10.22.0.64"] ∧
    exceptIsOk (statusIPs []) = false ∧
    exceptIsOk (ips [⟨"bar"⟩]) = false :=
  ⟨rfl, rfl, rfl⟩

/-- C7 counterexample: `WhenStarted` does not fail on a CNI ADD result with zero
IP addresses — with a successful ADD returning an empty `ips` list it succeeds and
stores the raw (empty) result, exactly as `Test_cniContainerNetwork_WhenStarted`
expects. -/
theorem whenStarted_zeroIPs_succeeds_c7_cex :
    whenStarted none [] 6 = Except.ok ⟨[], [], []⟩ ∧
    exceptIsOk (whenStarted none [] 6) = true :=
  ⟨rfl, rfl⟩

/-- C7 (amended): `WhenStarted` itself performs no zero-IP check; the check lives
in `Status`: whenever a `Status` on the stored result succeeds, it returns at
least one IP and every returned IP string is non-empty. -/
theorem status_after_whenStarted_c7 (addResult : List IPConfigEntry) (pid : Nat)
    (res : ContNetResult) (l : List String)
    (_hws : whenStarted none addResult pid = Except.ok res)
    (hst : statusIPs res.data = Except.ok l) :
    1 ≤ l.length ∧ ∀ a ∈ l, a ≠ "" := by
  obtain ⟨hips, hne⟩ := statusIPs_ok res.data l hst
  refine ⟨?_, ?_⟩
  · rcases l with _ | ⟨a, l2⟩
    · exact absurd rfl hne
    · simp
  · intro a ha
    obtain ⟨e, _, hpe⟩ := ips_mem res.data l hips a ha
    exact parseCIDR_ne_empty e.address a hpe

/-- Witness for C7 (amended) at a concrete one-entry result. -/
theorem status_after_whenStarted_c7_witness :
    whenStarted none [⟨"10.22.0.64/16"⟩] 6
        = Except.ok ⟨[⟨"10.22.0.64/16"⟩], [], []⟩ ∧
    statusIPs [⟨"10.22.0.64/16"⟩] = Except.ok ["10.22.0.64"] ∧
    (1 ≤ ["10.22.0.64"].length ∧ ∀ a ∈ ["10.22.0.64"], a ≠ "") :=
  ⟨rfl, rfl,
    status_after_whenStarted_c7 [⟨"10.22.0.64/16"⟩] 6 ⟨[⟨"10.22.0.64/16"⟩], [], []⟩
      ["10.22.0.64"] rfl rfl⟩

/-- C8: `UpdateRuntimeConfig` returns a hard error for every podCIDR argument,
including nil/empty, because the chosen CNI plugin cannot accept a dynamic
CIDR. -/
theorem updateRuntimeConfig_hard_error_c8 (podCIDR : Option String) :
    exceptIsOk (updateRuntimeConfig podCIDR) = false :=
  rfl

/-- C9: for every pod ID the runtime-conf template has container ID equal to the
pod ID, interface name "eth0" (the default), an empty network-namespace path, and
an empty extra-args list. -/
theorem getCNIRuntimeConf_template_c9 (podID : String) :
    (getCNIRuntimeConf podID).containerID = podID ∧
    (getCNIRuntimeConf podID).ifName = "eth0" ∧
    (getCNIRuntimeConf podID).netNS = "" ∧
    (getCNIRuntimeConf podID).args = [] :=
  ⟨rfl, rfl, rfl, rfl⟩

/-! ### Claim theorems: StopContainer -/

/-- C10: with retries ≤ 0 the attempt loop body is never entered, so
`StopContainer` performs no manager request, awaits nothing, leaves the manager
untouched and returns the initial nil error. -/
theorem stopContainer_no_retries_c10 {σ : Type} (server : Nat → σ → ManagerResponse × σ)
    (id : String) (timeout retries : Int) (s : σ) (h : retries ≤ 0) :
    stopContainer server id timeout retries s = ⟨none, s, [], 0⟩ := by
  unfold stopContainer
  rw [Int.toNat_of_nonpos h]
  rfl

theorem stopFrom_reqs {σ : Type} (server : Nat → σ → ManagerResponse × σ) (id : String)
    (timeout retries : Int) :
    ∀ (fuel i : Nat) (s : σ) (lastErr : Option String),
      ∃ n ≤ fuel, (stopFrom server id timeout retries i fuel s lastErr).reqs
        = (List.range n).map (fun k => stopReq timeout retries (i + k)) := by
  intro fuel
  induction fuel with
  | zero =>
    intro i s lastErr
    exact ⟨0, Nat.le_refl 0, by simp [stopFrom]⟩
  | succ f ih =>
    intro i s lastErr
    rcases hsrv : server i s with ⟨resp, s2⟩
    have hone : [stopReq timeout retries i]
        = (List.range 1).map (fun k => stopReq timeout retries (i + k)) := rfl
    rcases resp with msg | waitErr
    · by_cases hm : msg = notFoundMsg
      · refine ⟨1, by omega, ?_⟩
        simp only [stopFrom, hsrv, if_pos hm]
        exact hone
      · refine ⟨1, by omega, ?_⟩
        simp only [stopFrom, hsrv, if_neg hm]
        exact hone
    · by_cases hw : waitErr = some alreadyStoppedMsg
      · refine ⟨1, by omega, ?_⟩
        simp only [stopFrom, hsrv, if_pos hw]
        exact hone
      · obtain ⟨n, hn, hreq⟩ := ih (i + 1) s2 waitErr
        refine ⟨n + 1, by omega, ?_⟩
        simp only [stopFrom, hsrv, if_neg hw]
        rw [hreq, List.range_succ_eq_map]
        simp only [List.map_cons, List.map_map, Nat.add_zero]
        congr 1
        apply List.map_congr_left
        intro a _
        simp only [Function.comp]
        congr 1
        omega

theorem stopFrom_step_submit {σ : Type} (server : Nat → σ → ManagerResponse × σ)
    (id : String) (timeout retries : Int) (i fuel : Nat) (s s2 : σ)
    (lastErr : Option String) (msg : String)
    (hsrv : server i s = (ManagerResponse.submitError msg, s2)) :
    stopFrom server id timeout retries i (fuel + 1) s lastErr =
      if msg = notFoundMsg then ⟨none, s2, [stopReq timeout retries i], 0⟩
      else ⟨some (wrapStopErr id msg), s2, [stopReq timeout retries i], 0⟩ := by
  simp [stopFrom, hsrv]

theorem stopFrom_step_op {σ : Type} (server : Nat → σ → ManagerResponse × σ)
    (id : String) (timeout retries : Int) (i fuel : Nat) (s s2 : σ)
    (lastErr : Option String) (w : Option String)
    (hsrv : server i s = (ManagerResponse.opResult w, s2)) :
    stopFrom server id timeout retries i (fuel + 1) s lastErr =
      if w = some alreadyStoppedMsg then ⟨none, s2, [stopReq timeout retries i], 1⟩
      else
        ⟨(stopFrom server id timeout retries (i + 1) fuel s2 w).err,
         (stopFrom server id timeout retries (i + 1) fuel s2 w).state,
         stopReq timeout retries i :: (stopFrom server id timeout retries (i + 1) fuel s2 w).reqs,
         (stopFrom server id timeout retries (i + 1) fuel s2 w).awaited + 1⟩ := by
  simp [stopFrom, hsrv]

theorem stopFrom_notFound_aux (f : Nat → ManagerResponse) (id : String)
    (timeout retries : Int) (j : Nat)
    (hj : f j = ManagerResponse.submitError notFoundMsg) :
    ∀ (fuel i : Nat) (lastErr : Option String),
      i ≤ j → j < i + fuel →
      (∀ k, i ≤ k → k < j →
        ∃ w, f k = ManagerResponse.opResult w ∧ w ≠ some alreadyStoppedMsg) →
      (stopFrom (oracleServer f) id timeout retries i fuel () lastErr).err = none ∧
      (stopFrom (oracleServer f) id timeout retries i fuel () lastErr).awaited = j - i ∧
      (stopFrom (oracleServer f) id timeout retries i fuel () lastErr).reqs.length
        = j - i + 1 := by
  intro fuel
  induction fuel with
  | zero =>
    intro i lastErr hij hji _
    omega
  | succ fl ih =>
    intro i lastErr hij hji hbefore
    by_cases hieq : i = j
    · subst hieq
      rw [stopFrom_step_submit (oracleServer f) id timeout retries i fl () ()
        lastErr notFoundMsg (by simp [oracleServer, hj]), if_pos rfl]
      exact ⟨rfl, by simp, by simp⟩
    · have hilt : i < j := by omega
      obtain ⟨w, hw, hwne⟩ := hbefore i (Nat.le_refl i) hilt
      obtain ⟨ihe, iha, ihl⟩ := ih (i + 1) w (by omega) (by omega)
        (fun k hk1 hk2 => hbefore k (by omega) hk2)
      rw [stopFrom_step_op (oracleServer f) id timeout retries i fl () ()
        lastErr w (by simp [oracleServer, hw]), if_neg hwne]
      refine ⟨ihe, ?_, ?_⟩
      · simp only [iha]
        omega
      · simp only [List.length_cons, ihl]
        omega

/-- C2: if the manager reports NotFound on some attempt `j` (the container does
not exist, including when it vanishes between attempts, all earlier attempts
having returned awaited non-terminal errors), `StopContainer` returns nil, and no
further operation is awaited after the first NotFound: exactly the `j - 1` earlier
operations were awaited and exactly `j` requests submitted. -/
theorem stopContainer_notFound_c2 (f : Nat → ManagerResponse) (id : String)
    (timeout retries : Int) (j : Nat)
    (hj1 : 1 ≤ j) (hjr : (j : Int) ≤ retries)
    (hbefore : ∀ k, 1 ≤ k → k < j →
      ∃ w, f k = ManagerResponse.opResult w ∧ w ≠ some alreadyStoppedMsg)
    (hj : f j = ManagerResponse.submitError notFoundMsg) :
    (stopContainer (oracleServer f) id timeout retries ()).err = none ∧
    (stopContainer (oracleServer f) id timeout retries ()).awaited = j - 1 ∧
    (stopContainer (oracleServer f) id timeout retries ()).reqs.length = j := by
  unfold stopContainer
  obtain ⟨he, ha, hl⟩ := stopFrom_notFound_aux f id timeout retries j hj
    retries.toNat 1 none hj1 (by omega) hbefore
  exact ⟨he, ha, by omega⟩

/-- Witness for C2: the container vanishes between attempts — attempt 1 fails
with a retriable error, attempt 2 hits NotFound; the call returns nil with one
awaited operation and two submitted requests. -/
theorem stopContainer_notFound_c2_witness :
    (1 : Nat) ≤ 2 ∧ ((2 : Nat) : Int) ≤ 3 ∧
    (∀ k, 1 ≤ k → k < 2 →
      ∃ w, (fun k2 => if k2 = 2 then ManagerResponse.submitError notFoundMsg
            else ManagerResponse.opResult (some "busy")) k = ManagerResponse.opResult w ∧
        w ≠ some alreadyStoppedMsg) ∧
    (fun k2 => if k2 = 2 then ManagerResponse.submitError notFoundMsg
      else ManagerResponse.opResult (some "busy")) 2 = ManagerResponse.submitError notFoundMsg ∧
    ((stopContainer (oracleServer fun k2 => if k2 = 2 then ManagerResponse.submitError notFoundMsg
        else ManagerResponse.opResult (some "busy")) "c1" 5 3 ()).err = none ∧
     (stopContainer (oracleServer fun k2 => if k2 = 2 then ManagerResponse.submitError notFoundMsg
        else ManagerResponse.opResult (some "busy")) "c1" 5 3 ()).awaited = 2 - 1 ∧
     (stopContainer (oracleServer fun k2 => if k2 = 2 then ManagerResponse.submitError notFoundMsg
        else ManagerResponse.opResult (some "busy")) "c1" 5 3 ()).reqs.length = 2) :=
  ⟨by decide, by decide,
    fun k hk1 hk2 => by
      obtain rfl : k = 1 := by omega
      exact ⟨some "busy", rfl, by decide⟩,
    rfl,
    stopContainer_notFound_c2
      (fun k2 => if k2 = 2 then ManagerResponse.submitError notFoundMsg
        else ManagerResponse.opResult (some "busy")) "c1" 5 3 2 (by decide) (by decide)
      (fun k hk1 hk2 => by
        obtain rfl : k = 1 := by omega
        exact ⟨some "busy", rfl, by decide⟩)
      rfl⟩

theorem stopFrom_alreadyStopped_aux (f : Nat → ManagerResponse) (id : String)
    (timeout retries : Int) (j : Nat)
    (hj : f j = ManagerResponse.opResult (some alreadyStoppedMsg)) :
    ∀ (fuel i : Nat) (lastErr : Option String),
      i ≤ j → j < i + fuel →
      (∀ k, i ≤ k → k < j →
        ∃ w, f k = ManagerResponse.opResult w ∧ w ≠ some alreadyStoppedMsg) →
      (stopFrom (oracleServer f) id timeout retries i fuel () lastErr).err = none ∧
      (stopFrom (oracleServer f) id timeout retries i fuel () lastErr).awaited = j - i + 1 ∧
      (stopFrom (oracleServer f) id timeout retries i fuel () lastErr).reqs.length
        = j - i + 1 := by
  intro fuel
  induction fuel with
  | zero =>
    intro i lastErr hij hji _
    omega
  | succ fl ih =>
    intro i lastErr hij hji hbefore
    by_cases hieq : i = j
    · subst hieq
      rw [stopFrom_step_op (oracleServer f) id timeout retries i fl () ()
        lastErr (some alreadyStoppedMsg) (by simp [oracleServer, hj]), if_pos rfl]
      exact ⟨rfl, by simp, by simp⟩
    · have hilt : i < j := by omega
      obtain ⟨w, hw, hwne⟩ := hbefore i (Nat.le_refl i) hilt
      obtain ⟨ihe, iha, ihl⟩ := ih (i + 1) w (by omega) (by omega)
        (fun k hk1 hk2 => hbefore k (by omega) hk2)
      rw [stopFrom_step_op (oracleServer f) id timeout retries i fl () ()
        lastErr w (by simp [oracleServer, hw]), if_neg hwne]
      refine ⟨ihe, ?_, ?_⟩
      · simp only [iha]
        omega
      · simp only [List.length_cons, ihl]
        omega

/-- C3: if the awaited completion of attempt `j` reports that the container is
already stopped (all earlier attempts having returned awaited non-terminal
errors), `StopContainer` immediately returns nil, whatever the attempt number `j`
is: exactly `j` operations were awaited and `j` requests submitted. -/
theorem stopContainer_alreadyStopped_c3 (f : Nat → ManagerResponse) (id : String)
    (timeout retries : Int) (j : Nat)
    (hj1 : 1 ≤ j) (hjr : (j : Int) ≤ retries)
    (hbefore : ∀ k, 1 ≤ k → k < j →
      ∃ w, f k = ManagerResponse.opResult w ∧ w ≠ some alreadyStoppedMsg)
    (hj : f j = ManagerResponse.opResult (some alreadyStoppedMsg)) :
    (stopContainer (oracleServer f) id timeout retries ()).err = none ∧
    (stopContainer (oracleServer f) id timeout retries ()).awaited = j ∧
    (stopContainer (oracleServer f) id timeout retries ()).reqs.length = j := by
  unfold stopContainer
  obtain ⟨he, ha, hl⟩ := stopFrom_alreadyStopped_aux f id timeout retries j hj
    retries.toNat 1 none hj1 (by omega) hbefore
  exact ⟨he, by omega, by omega⟩

/-- Witness for C3: attempt 1 fails with a retriable error, attempt 2's awaited
completion reports the container already stopped; the call returns nil. -/
theorem stopContainer_alreadyStopped_c3_witness :
    (1 : Nat) ≤ 2 ∧ ((2 : Nat) : Int) ≤ 3 ∧
    (∀ k, 1 ≤ k → k < 2 →
      ∃ w, (fun k2 => if k2 = 2 then ManagerResponse.opResult (some alreadyStoppedMsg)
            else ManagerResponse.opResult (some "busy")) k = ManagerResponse.opResult w ∧
        w ≠ some alreadyStoppedMsg) ∧
    (fun k2 => if k2 = 2 then ManagerResponse.opResult (some alreadyStoppedMsg)
      else ManagerResponse.opResult (some "busy")) 2
        = ManagerResponse.opResult (some alreadyStoppedMsg) ∧
    ((stopContainer (oracleServer fun k2 =>
        if k2 = 2 then ManagerResponse.opResult (some alreadyStoppedMsg)
        else ManagerResponse.opResult (some "busy")) "c1" 5 3 ()).err = none ∧
     (stopContainer (oracleServer fun k2 =>
        if k2 = 2 then ManagerResponse.opResult (some alreadyStoppedMsg)
        else ManagerResponse.opResult (some "busy")) "c1" 5 3 ()).awaited = 2 ∧
     (stopContainer (oracleServer fun k2 =>
        if k2 = 2 then ManagerResponse.opResult (some alreadyStoppedMsg)
        else ManagerResponse.opResult (some "busy")) "c1" 5 3 ()).reqs.length = 2) :=
  ⟨by decide, by decide,
    fun k hk1 hk2 => by
      obtain rfl : k = 1 := by omega
      exact ⟨some "busy", rfl, by decide⟩,
    rfl,
    stopContainer_alreadyStopped_c3
      (fun k2 => if k2 = 2 then ManagerResponse.opResult (some alreadyStoppedMsg)
        else ManagerResponse.opResult (some "busy")) "c1" 5 3 2 (by decide) (by decide)
      (fun k hk1 hk2 => by
        obtain rfl : k = 1 := by omega
        exact ⟨some "busy", rfl, by decide⟩)
      rfl⟩

theorem stopFrom_allErr_aux (f : Nat → ManagerResponse) (e : Nat → String) (id : String)
    (timeout retries : Int) :
    ∀ (fuel i : Nat) (lastErr : Option String),
      1 ≤ fuel →
      (∀ k, i ≤ k → k < i + fuel →
        f k = ManagerResponse.opResult (some (e k)) ∧ e k ≠ alreadyStoppedMsg) →
      (stopFrom (oracleServer f) id timeout retries i fuel () lastErr).err
        = some (e (i + fuel - 1)) ∧
      (stopFrom (oracleServer f) id timeout retries i fuel () lastErr).awaited = fuel ∧
      (stopFrom (oracleServer f) id timeout retries i fuel () lastErr).reqs.length
        = fuel := by
  intro fuel
  induction fuel with
  | zero =>
    intro i lastErr hf _
    omega
  | succ fl ih =>
    intro i lastErr _ hall
    obtain ⟨hw, hwne⟩ := hall i (Nat.le_refl i) (by omega)
    have hne : (some (e i) : Option String) ≠ some alreadyStoppedMsg := by
      simp [hwne]
    rw [stopFrom_step_op (oracleServer f) id timeout retries i fl () ()
      lastErr (some (e i)) (by simp [oracleServer, hw]), if_neg hne]
    rcases Nat.eq_zero_or_pos fl with hfl | hfl
    · subst hfl
      refine ⟨?_, rfl, rfl⟩
      show (some (e i) : Option String) = some (e (i + 1 - 1))
      simp
    · obtain ⟨ihe, iha, ihl⟩ := ih (i + 1) (some (e i)) hfl
        (fun k hk1 hk2 => hall k (by omega) (by omega))
      refine ⟨?_, ?_, ?_⟩
      · have hidx : i + 1 + fl - 1 = i + (fl + 1) - 1 := by omega
        rw [ihe, hidx]
      · simp only [iha]
      · simp only [List.length_cons, ihl]

/-- C4: if every attempt's awaited completion errs with an error that is neither
NotFound nor already-stopped, `StopContainer` awaits all `retries` operations,
submits all `retries` requests, and returns exactly the last attempt's error. -/
theorem stopContainer_lastError_c4 (f : Nat → ManagerResponse) (e : Nat → String)
    (id : String) (timeout retries : Int) (hr : 1 ≤ retries)
    (hall : ∀ k : Nat, 1 ≤ k → (k : Int) ≤ retries →
      f k = ManagerResponse.opResult (some (e k)) ∧
      e k ≠ alreadyStoppedMsg ∧ e k ≠ notFoundMsg) :
    (stopContainer (oracleServer f) id timeout retries ()).err = some (e retries.toNat) ∧
    (stopContainer (oracleServer f) id timeout retries ()).awaited = retries.toNat ∧
    (stopContainer (oracleServer f) id timeout retries ()).reqs.length = retries.toNat ∧
    ((retries.toNat : Int) = retries) := by
  unfold stopContainer
  obtain ⟨he, ha, hl⟩ := stopFrom_allErr_aux f e id timeout retries retries.toNat 1 none
    (by omega)
    (fun k hk1 hk2 => ⟨(hall k hk1 (by omega)).1, (hall k hk1 (by omega)).2.1⟩)
  refine ⟨?_, ha, hl, by omega⟩
  have hidx : 1 + retries.toNat - 1 = retries.toNat := by omega
  rw [he, hidx]

/-- Witness for C4: two attempts, both erring "busy" then "still busy"; the call
returns the second error after awaiting both operations. -/
theorem stopContainer_lastError_c4_witness :
    (1 : Int) ≤ 2 ∧
    (∀ k : Nat, 1 ≤ k → (k : Int) ≤ 2 →
      (fun k2 => ManagerResponse.opResult (some (if k2 = 2 then "still busy" else "busy"))) k
        = ManagerResponse.opResult
            (some ((fun k2 => if k2 = 2 then "still busy" else "busy") k)) ∧
      (fun k2 => if k2 = 2 then "still busy" else "busy") k ≠ alreadyStoppedMsg ∧
      (fun k2 => if k2 = 2 then "still busy" else "busy") k ≠ notFoundMsg) ∧
    ((stopContainer (oracleServer fun k2 =>
        ManagerResponse.opResult (some (if k2 = 2 then "still busy" else "busy")))
        "c1" 5 2 ()).err = some ((fun k2 => if k2 = 2 then "still busy" else "busy") (2 : Int).toNat) ∧
     (stopContainer (oracleServer fun k2 =>
        ManagerResponse.opResult (some (if k2 = 2 then "still busy" else "busy")))
        "c1" 5 2 ()).awaited = (2 : Int).toNat ∧
     (stopContainer (oracleServer fun k2 =>
        ManagerResponse.opResult (some (if k2 = 2 then "still busy" else "busy")))
        "c1" 5 2 ()).reqs.length = (2 : Int).toNat ∧
     (((2 : Int).toNat : Int) = 2)) :=
  ⟨by decide,
    fun k hk1 hk2 => ⟨rfl, by
      by_cases h2 : k = 2
      · subst h2
        decide
      · simp only [if_neg h2]
        decide, by
      by_cases h2 : k = 2
      · subst h2
        decide
      · simp only [if_neg h2]
        decide⟩,
    stopContainer_lastError_c4
      (fun k2 => ManagerResponse.opResult (some (if k2 = 2 then "still busy" else "busy")))
      (fun k2 => if k2 = 2 then "still busy" else "busy") "c1" 5 2 (by decide)
      (fun k hk1 hk2 => ⟨rfl, by
        by_cases h2 : k = 2
        · subst h2
          decide
        · simp only [if_neg h2]
          decide, by
        by_cases h2 : k = 2
        · subst h2
          decide
        · simp only [if_neg h2]
          decide⟩)⟩

/-- C1: for every manager behaviour, container id, timeout and retries ≥ 1,
`StopContainer` submits at most `retries` stop requests, each with action "stop"
and the given graceful timeout, and the Force flag is set exactly on the request
of attempt number `retries` and on no earlier one. -/
theorem stopContainer_requests_c1 {σ : Type} (server : Nat → σ → ManagerResponse × σ)
    (id : String) (timeout retries : Int) (s : σ) (hr : 1 ≤ retries) :
    (((stopContainer server id timeout retries s).reqs.length : Int) ≤ retries) ∧
    ∀ k (hk : k < (stopContainer server id timeout retries s).reqs.length),
      ((stopContainer server id timeout retries s).reqs[k]).action = "stop" ∧
      ((stopContainer server id timeout retries s).reqs[k]).timeout = timeout ∧
      (((stopContainer server id timeout retries s).reqs[k]).force = true
        ↔ (k : Int) + 1 = retries) := by
  unfold stopContainer
  obtain ⟨n, hn, hreq⟩ := stopFrom_reqs server id timeout retries retries.toNat 1 s none
  constructor
  · rw [hreq]
    simp only [List.length_map, List.length_range]
    omega
  · intro k hk
    have hval : (stopFrom server id timeout retries 1 retries.toNat s none).reqs[k]
        = stopReq timeout retries (1 + k) := by
      simp only [hreq]
      simp
    rw [hval]
    refine ⟨rfl, rfl, ?_⟩
    simp only [stopReq, beq_iff_eq]
    constructor
    · intro he
      omega
    · intro he
      omega

/-- Witness for C1: three failing attempts against a stateless manager; the
request trace is the three stop requests with Force only on the last. -/
theorem stopContainer_requests_c1_witness :
    (1 : Int) ≤ 3 ∧
    ((((stopContainer (oracleServer fun _ => ManagerResponse.opResult (some "boom"))
        "c1" 5 3 ()).reqs.length : Int) ≤ 3) ∧
    ∀ k (hk : k < (stopContainer (oracleServer fun _ => ManagerResponse.opResult (some "boom"))
        "c1" 5 3 ()).reqs.length),
      ((stopContainer (oracleServer fun _ => ManagerResponse.opResult (some "boom"))
        "c1" 5 3 ()).reqs[k]).action = "stop" ∧
      ((stopContainer (oracleServer fun _ => ManagerResponse.opResult (some "boom"))
        "c1" 5 3 ()).reqs[k]).timeout = 5 ∧
      (((stopContainer (oracleServer fun _ => ManagerResponse.opResult (some "boom"))
        "c1" 5 3 ()).reqs[k]).force = true ↔ (k : Int) + 1 = 3)) :=
  ⟨by decide,
    stopContainer_requests_c1 (oracleServer fun _ => ManagerResponse.opResult (some "boom"))
      "c1" 5 3 () (by decide)⟩

theorem stopFrom_from_stopped (flaky : Nat → Option String) (id : String)
    (timeout retries : Int) (fuel i : Nat) (lastErr : Option String) :
    (stopFrom (managerServer flaky) id timeout retries i fuel
        (some CState.stopped) lastErr).state = some CState.stopped ∧
    (stopFrom (managerServer flaky) id timeout retries i fuel
        (some CState.stopped) lastErr).err = (if fuel = 0 then lastErr else none) := by
  rcases fuel with _ | fl
  · exact ⟨rfl, rfl⟩
  · rw [stopFrom_step_op (managerServer flaky) id timeout retries i fl
      (some CState.stopped) (some CState.stopped) lastErr (some alreadyStoppedMsg) rfl,
      if_pos rfl]
    exact ⟨rfl, rfl⟩

theorem stopFrom_from_absent (flaky : Nat → Option String) (id : String)
    (timeout retries : Int) (fuel i : Nat) (lastErr : Option String) :
    (stopFrom (managerServer flaky) id timeout retries i fuel none lastErr).state = none ∧
    (stopFrom (managerServer flaky) id timeout retries i fuel none lastErr).err
      = (if fuel = 0 then lastErr else none) := by
  rcases fuel with _ | fl
  · exact ⟨rfl, rfl⟩
  · rw [stopFrom_step_submit (managerServer flaky) id timeout retries i fl
      none none lastErr notFoundMsg rfl, if_pos rfl]
    exact ⟨rfl, rfl⟩

theorem stopFrom_success_not_running (flaky : Nat → Option String)
    (hfl : ∀ k, flaky k ≠ some alreadyStoppedMsg) (id : String) (timeout retries : Int) :
    ∀ (fuel i : Nat) (s : Option CState) (lastErr : Option String),
      1 ≤ fuel →
      (stopFrom (managerServer flaky) id timeout retries i fuel s lastErr).err = none →
      (stopFrom (managerServer flaky) id timeout retries i fuel s lastErr).state
        ≠ some CState.running := by
  intro fuel
  induction fuel with
  | zero =>
    intro i s lastErr hf _
    omega
  | succ fl ih =>
    intro i s lastErr _ herr
    rcases s with _ | cs
    · intro hst
      rw [(stopFrom_from_absent flaky id timeout retries (fl + 1) i lastErr).1] at hst
      exact Option.noConfusion hst
    · rcases cs with _ | _
      · -- running
        rcases hfk : flaky i with _ | msg
        · have hstep := stopFrom_step_op (managerServer flaky) id timeout retries i fl
            (some CState.running) (some CState.stopped) lastErr none
            (by simp [managerServer, hfk])
          rw [hstep, if_neg (by simp)] at herr ⊢
          intro hst
          have := (stopFrom_from_stopped flaky id timeout retries fl (i + 1) none).1
          rw [this] at hst
          exact CState.noConfusion (Option.some.injEq _ _ ▸ hst)
        · have hmsgne : (some msg : Option String) ≠ some alreadyStoppedMsg := by
            intro hcontra
            exact hfl i (hfk.trans hcontra)
          have hstep := stopFrom_step_op (managerServer flaky) id timeout retries i fl
            (some CState.running) (some CState.running) lastErr (some msg)
            (by simp [managerServer, hfk])
          rw [hstep, if_neg hmsgne] at herr ⊢
          rcases Nat.eq_zero_or_pos fl with hf0 | hf0
          · subst hf0
            exact absurd herr (by simp [stopFrom])
          · exact ih (i + 1) (some CState.running) (some msg) hf0 herr
      · -- stopped
        intro hst
        have := (stopFrom_from_stopped flaky id timeout retries (fl + 1) i lastErr).1
        rw [this] at hst
        exact CState.noConfusion (Option.some.injEq _ _ ▸ hst)

/-- C5: stop is idempotent — if a first `StopContainer` (with at least one
attempt) against the container manager succeeded, a second `StopContainer` with
any timeout and retries, and any manager flakiness, never returns an error: the
container is then stopped or gone, so the second call hits already-stopped or
NotFound, both coerced to success.  The hypothesis on `flaky1` states that a stop
operation on a running container never fails with the already-stopped message. -/
theorem stopContainer_idempotent_c5 (flaky1 flaky2 : Nat → Option String)
    (id1 id2 : String) (t1 t2 r1 r2 : Int) (s0 : Option CState)
    (hfl : ∀ k, flaky1 k ≠ some alreadyStoppedMsg)
    (hr1 : 1 ≤ r1)
    (hfirst : (stopContainer (managerServer flaky1) id1 t1 r1 s0).err = none) :
    (stopContainer (managerServer flaky2) id2 t2 r2
      (stopContainer (managerServer flaky1) id1 t1 r1 s0).state).err = none := by
  have hnr : (stopContainer (managerServer flaky1) id1 t1 r1 s0).state
      ≠ some CState.running := by
    unfold stopContainer at hfirst ⊢
    exact stopFrom_success_not_running flaky1 hfl id1 t1 r1 r1.toNat 1 s0 none
      (by omega) hfirst
  rcases hst : (stopContainer (managerServer flaky1) id1 t1 r1 s0).state with _ | cs
  · unfold stopContainer
    rw [(stopFrom_from_absent flaky2 id2 t2 r2 r2.toNat 1 none).2]
    simp
  · rcases cs with _ | _
    · exact absurd hst hnr
    · unfold stopContainer
      rw [(stopFrom_from_stopped flaky2 id2 t2 r2 r2.toNat 1 none).2]
      simp

/-- Witness for C5: a running container is stopped on the first call's only
attempt; the second call, against a manager whose stop operations would all fail,
still returns nil because the container is already stopped. -/
theorem stopContainer_idempotent_c5_witness :
    (∀ k : Nat, (fun _ : Nat => (none : Option String)) k ≠ some alreadyStoppedMsg) ∧
    (1 : Int) ≤ 1 ∧
    (stopContainer (managerServer fun _ => none) "c1" 5 1 (some CState.running)).err
      = none ∧
    (stopContainer (managerServer fun _ => some "boom") "c1" 5 3
      (stopContainer (managerServer fun _ => none) "c1" 5 1
        (some CState.running)).state).err = none :=
  ⟨fun k h => Option.noConfusion h, by decide, rfl,
    stopContainer_idempotent_c5 (fun _ => none) (fun _ => some "boom") "c1" "c1" 5 5 1 3
      (some CState.running) (fun k h => Option.noConfusion h) (by decide) rfl⟩

/-- Witness for C10 at retries = 0 against a manager that would fail every
attempt. -/
theorem stopContainer_no_retries_c10_witness :
    (0 : Int) ≤ 0 ∧
    stopContainer (oracleServer fun _ => ManagerResponse.opResult (some "boom"))
        "c1" 5 0 () = ⟨none, (), [], 0⟩ :=
  ⟨by decide,
    stopContainer_no_retries_c10 (oracleServer fun _ => ManagerResponse.opResult (some "boom"))
      "c1" 5 0 () (by decide)⟩

end Lxe
